import Mathlib

/-!
Verification of the bksd backup daemon against its specification.

Shallow embedding of the core pipeline of the bksd repository:
the transfer-status data model (src/src/core/transfer_engine.rs), the
per-job consumer task of the orchestrator (src/src/core/orchestrator.rs),
the native copy engine progress loop and error classifier
(src/src/core/transfer_engine/native_copy.rs), the rsync engine guard
(src/src/core/transfer_engine/rsync.rs), the Linux adapter cleanup
(src/src/adapters/linux.rs), the verifier (src/src/core/verifier.rs) and
the job persistence read side (src/src/db/jobs.rs).

External effects (filesystem reads and writes, system calls, the notifier,
the database) are modelled by explicit state passing: fallible calls take
their outcome from an environment record, and side effects are recorded in
traces.  Machine integers (u64, u8) are modelled as Nat with the saturation
or truncation made explicit where the Rust code narrows.
-/

namespace Bksd

/-- The `TransferStatus` enum from src/src/core/transfer_engine.rs.
`percentage` is a `u8` in the source; it is carried here as a Nat (the
producing code narrows with an `as u8` cast, modelled at the producer). -/
inductive TransferStatus where
  | ready
  | inProgress (totalBytes bytesCopied : Nat) (currentFile : String)
      (percentage : Nat) (etaSeconds : Option Nat)
  | copyComplete
  | verifying (current total : Nat)
  | complete (totalBytes durationSecs : Nat)
  | failed (message : String)
  deriving DecidableEq, Repr

/-- Terminal statuses: `Complete` and `Failed` (spec, section 3). -/
def TransferStatus.isTerminal : TransferStatus → Bool
  | .complete _ _ => true
  | .failed _ => true
  | _ => false

/-- One row appended to the `job_status_log` table by
`db::jobs::update_status` or `db::jobs::create` (src/src/db/jobs.rs). -/
structure LogEntry where
  status : String
  description : Option String
  totalBytes : Option Nat
  durationSecs : Option Nat
  deriving DecidableEq, Repr

/-- A status-log entry is terminal when its tag is `complete` or `failed`
(the tags written by the consumer task in src/src/core/orchestrator.rs). -/
def LogEntry.isTerminalEntry (e : LogEntry) : Bool :=
  e.status = "complete" || e.status = "failed"

/-- Side effects of the per-job tasks of `handle_device_added`
(src/src/core/orchestrator.rs).  `detached` records whether the notifier
call was made from a `tokio::spawn`-ed task (true) or awaited inline in the
task that drives the job (false). -/
inductive Action where
  | notifyStarted (detached : Bool)
  | notifyCompleted (detached : Bool)
  | notifyFailed (detached : Bool)
  | cleanupDevice
  deriving DecidableEq, Repr

/-- State visible to and mutated by one job of the orchestrator: this
job's entry in the progress registry (src/src/core/progress.rs holds a map
job-id to status; we track the one key of this job, `none` = absent), the
status-log rows appended for the job (oldest first), the trace of notifier
and cleanup calls, and the warnings logged for dropped errors. -/
structure ConsumerState where
  registry : Option TransferStatus
  log : List LogEntry
  actions : List Action
  warnings : List String
  deriving DecidableEq, Repr

/-- Outcomes of the fallible external calls made by the consumer task. -/
structure ConsumerEnv where
  /-- whether `ctx.notifier` is `Some` -/
  notifierConfigured : Bool
  /-- result of each `notifier.notify(event).await` call -/
  notifyOk : Bool
  /-- result of `adapter.cleanup_device(&dev)` -/
  cleanupOk : Bool
  deriving DecidableEq, Repr

/-- The progress-registry update the consumer performs first for every
received status: `progress_tracker.update(&job_id, status.clone())`
(src/src/core/orchestrator.rs line 231). -/
def updateRegistry (s : ConsumerState) (st : TransferStatus) : ConsumerState :=
  { s with registry := some st }

/-- Append one status-log row, as `db::jobs::update_status` does. -/
def appendLog (s : ConsumerState) (e : LogEntry) : ConsumerState :=
  { s with log := s.log ++ [e] }

/-- A notifier call made inline by the consumer task (`notifier.notify(event)
.await`): performed only when a notifier is configured; a failure is logged
as a warning and dropped (src/src/core/orchestrator.rs lines 263-273 and
295-304). -/
def notifyInline (env : ConsumerEnv) (s : ConsumerState) (a : Action)
    (failMsg : String) : ConsumerState :=
  if env.notifierConfigured then
    let s1 := { s with actions := s.actions ++ [a] }
    if env.notifyOk then s1 else { s1 with warnings := s1.warnings ++ [failMsg] }
  else s

/-- The `adapter.cleanup_device(&dev)` call of the Complete branch; an error
is logged and otherwise ignored (src/src/core/orchestrator.rs lines 276-278). -/
def cleanupCall (env : ConsumerEnv) (s : ConsumerState) : ConsumerState :=
  let s1 := { s with actions := s.actions ++ [Action.cleanupDevice] }
  if env.cleanupOk then s1 else { s1 with warnings := s1.warnings ++ ["Failed to cleanup device"] }

/-- Processing of one received status by the consumer task of
`handle_device_added` (src/src/core/orchestrator.rs lines 222-311).
Returns the list of states after each micro-step (each await point or
mutation of shared state), the state after the whole match, and whether the
branch ended in `break`.  The match mirrors the source: `CopyComplete`
appends a row; `Complete` appends a row, sends the completion notification
inline, calls cleanup, removes the registry entry and breaks; `Failed`
appends a row, sends the failure notification inline, removes the registry
entry and breaks (no cleanup call in this branch); every other status only
updates the registry. -/
def consumerProcess (env : ConsumerEnv) (s : ConsumerState) (st : TransferStatus) :
    List ConsumerState × ConsumerState × Bool :=
  let s1 := updateRegistry s st
  match st with
  | .copyComplete =>
      let s2 := appendLog s1 ⟨"copy_complete", none, none, none⟩
      ([s1, s2], s2, false)
  | .complete tb ds =>
      let s2 := appendLog s1 ⟨"complete", none, some tb, some ds⟩
      let s3 := notifyInline env s2 (Action.notifyCompleted false)
        "Failed to send completion notification"
      let s4 := cleanupCall env s3
      let s5 := { s4 with registry := none }
      ([s1, s2, s3, s4, s5], s5, true)
  | .failed msg =>
      let s2 := appendLog s1 ⟨"failed", some msg, none, none⟩
      let s3 := notifyInline env s2 (Action.notifyFailed false)
        "Failed to send failure notification"
      let s4 := { s3 with registry := none }
      ([s1, s2, s3, s4], s4, true)
  | _ => ([s1], s1, false)

/-- All states the consumer task passes through (micro-step granularity)
while draining the given list of statuses from the progress channel,
breaking at the first terminal status. -/
def consumerTrace (env : ConsumerEnv) (s : ConsumerState) :
    List TransferStatus → List ConsumerState
  | [] => []
  | st :: rest =>
      let (states, s1, brk) := consumerProcess env s st
      if brk then states else states ++ consumerTrace env s1 rest

/-- States at status boundaries: the state after the consumer has finished
processing each received status (one entry per processed status). -/
def consumerBoundary (env : ConsumerEnv) (s : ConsumerState) :
    List TransferStatus → List ConsumerState
  | [] => []
  | st :: rest =>
      let (_, s1, brk) := consumerProcess env s st
      if brk then [s1] else s1 :: consumerBoundary env s1 rest

/-- Final state of the consumer task after draining the stream. -/
def consumerFinal (env : ConsumerEnv) (s : ConsumerState) :
    List TransferStatus → ConsumerState
  | [] => s
  | st :: rest =>
      let (_, s1, brk) := consumerProcess env s st
      if brk then s1 else consumerFinal env s1 rest

/-- Job-creation state: `db::jobs::create` appends the initial status-log
row (status literal `Ready`, src/src/db/jobs.rs lines 38-43) and, when a
notifier is configured, `handle_device_added` spawns a detached task for
the started notification (src/src/core/orchestrator.rs lines 120-135). -/
def jobInitState (env : ConsumerEnv) : ConsumerState :=
  { registry := none
    log := [⟨"Ready", some "Job created waiting for processor", none, none⟩]
    actions := if env.notifierConfigured then [Action.notifyStarted true] else []
    warnings := [] }

/-- A whole job as the consumer observes it: initial persisted state, then
the drain of the progress stream. -/
def runJob (env : ConsumerEnv) (stream : List TransferStatus) : ConsumerState :=
  consumerFinal env (jobInitState env) stream

example :
    (runJob ⟨true, true, true⟩ [.copyComplete, .complete 5 1]).log =
      [⟨"Ready", some "Job created waiting for processor", none, none⟩,
       ⟨"copy_complete", none, none, none⟩,
       ⟨"complete", none, some 5, some 1⟩] := by decide

example :
    (runJob ⟨true, true, true⟩ [.failed "x", .failed "x"]).log =
      [⟨"Ready", some "Job created waiting for processor", none, none⟩,
       ⟨"failed", some "x", none, none⟩] := by decide

example :
    (runJob ⟨true, true, true⟩ [.complete 5 1]).actions =
      [Action.notifyStarted true, Action.notifyCompleted false,
       Action.cleanupDevice] := by decide

/-- Number of terminal entries in a status log. -/
def terminalCount (l : List LogEntry) : Nat :=
  (l.filter LogEntry.isTerminalEntry).length

/-- True when no entry of any kind follows a terminal entry in the log. -/
def noEntryAfterTerminal : List LogEntry → Bool
  | [] => true
  | e :: rest => if e.isTerminalEntry then rest.isEmpty else noEntryAfterTerminal rest

/-- True when this job holds a terminal status in the progress registry. -/
def registryHoldsTerminal (s : ConsumerState) : Bool :=
  (s.registry.map TransferStatus.isTerminal).getD false

/-- Equality of the externally observable parts of two consumer states:
registry entry, status log and action trace (everything except the logged
warnings). -/
def ObsEq (s t : ConsumerState) : Prop :=
  s.registry = t.registry ∧ s.log = t.log ∧ s.actions = t.actions

@[simp] theorem updateRegistry_log (s : ConsumerState) (st : TransferStatus) :
    (updateRegistry s st).log = s.log := rfl

@[simp] theorem appendLog_log (s : ConsumerState) (e : LogEntry) :
    (appendLog s e).log = s.log ++ [e] := rfl

@[simp] theorem notifyInline_log (env : ConsumerEnv) (s : ConsumerState)
    (a : Action) (m : String) : (notifyInline env s a m).log = s.log := by
  unfold notifyInline
  split
  · split <;> rfl
  · rfl

@[simp] theorem cleanupCall_log (env : ConsumerEnv) (s : ConsumerState) :
    (cleanupCall env s).log = s.log := by
  unfold cleanupCall
  split <;> rfl

@[simp] theorem notifyInline_registry (env : ConsumerEnv) (s : ConsumerState)
    (a : Action) (m : String) : (notifyInline env s a m).registry = s.registry := by
  unfold notifyInline
  split
  · split <;> rfl
  · rfl

@[simp] theorem cleanupCall_registry (env : ConsumerEnv) (s : ConsumerState) :
    (cleanupCall env s).registry = s.registry := by
  unfold cleanupCall
  split <;> rfl

@[simp] theorem notifyInline_actions (env : ConsumerEnv) (s : ConsumerState)
    (a : Action) (m : String) :
    (notifyInline env s a m).actions =
      s.actions ++ (if env.notifierConfigured then [a] else []) := by
  unfold notifyInline
  split
  · split <;> simp_all
  · simp_all

@[simp] theorem cleanupCall_actions (env : ConsumerEnv) (s : ConsumerState) :
    (cleanupCall env s).actions = s.actions ++ [Action.cleanupDevice] := by
  unfold cleanupCall
  split <;> rfl

@[simp] theorem setRegistryNone_log (s : ConsumerState) :
    ({ s with registry := none } : ConsumerState).log = s.log := rfl

@[simp] theorem setRegistryNone_registry (s : ConsumerState) :
    ({ s with registry := none } : ConsumerState).registry = none := rfl

@[simp] theorem setRegistryNone_actions (s : ConsumerState) :
    ({ s with registry := none } : ConsumerState).actions = s.actions := rfl

@[simp] theorem consumerFinal_nil (env : ConsumerEnv) (s : ConsumerState) :
    consumerFinal env s [] = s := rfl

@[simp] theorem consumerFinal_ready (env : ConsumerEnv) (s : ConsumerState)
    (rest : List TransferStatus) :
    consumerFinal env s (.ready :: rest) =
      consumerFinal env (updateRegistry s .ready) rest := rfl

@[simp] theorem consumerFinal_inProgress (env : ConsumerEnv) (s : ConsumerState)
    (tb bc : Nat) (f : String) (p : Nat) (eta : Option Nat)
    (rest : List TransferStatus) :
    consumerFinal env s (.inProgress tb bc f p eta :: rest) =
      consumerFinal env (updateRegistry s (.inProgress tb bc f p eta)) rest := rfl

@[simp] theorem consumerFinal_verifying (env : ConsumerEnv) (s : ConsumerState)
    (c t : Nat) (rest : List TransferStatus) :
    consumerFinal env s (.verifying c t :: rest) =
      consumerFinal env (updateRegistry s (.verifying c t)) rest := rfl

@[simp] theorem consumerFinal_copyComplete (env : ConsumerEnv) (s : ConsumerState)
    (rest : List TransferStatus) :
    consumerFinal env s (.copyComplete :: rest) =
      consumerFinal env
        (appendLog (updateRegistry s .copyComplete) ⟨"copy_complete", none, none, none⟩)
        rest := rfl

@[simp] theorem consumerFinal_complete (env : ConsumerEnv) (s : ConsumerState)
    (tb ds : Nat) (rest : List TransferStatus) :
    consumerFinal env s (.complete tb ds :: rest) =
      { cleanupCall env
          (notifyInline env
            (appendLog (updateRegistry s (.complete tb ds))
              ⟨"complete", none, some tb, some ds⟩)
            (Action.notifyCompleted false) "Failed to send completion notification")
        with registry := none } := rfl

@[simp] theorem consumerFinal_failed (env : ConsumerEnv) (s : ConsumerState)
    (msg : String) (rest : List TransferStatus) :
    consumerFinal env s (.failed msg :: rest) =
      { notifyInline env
          (appendLog (updateRegistry s (.failed msg)) ⟨"failed", some msg, none, none⟩)
          (Action.notifyFailed false) "Failed to send failure notification"
        with registry := none } := rfl

theorem terminalCount_zero_noAfter :
    ∀ l : List LogEntry, terminalCount l = 0 → noEntryAfterTerminal l = true := by
  intro l
  induction l with
  | nil => intro _; rfl
  | cons e rest ih =>
      intro h
      simp only [terminalCount, List.filter] at h
      by_cases he : e.isTerminalEntry
      · simp [he] at h
      · simp only [noEntryAfterTerminal, he, if_neg]
        apply ih
        simpa [terminalCount, he] using h

theorem terminalCount_append (l₁ l₂ : List LogEntry) :
    terminalCount (l₁ ++ l₂) = terminalCount l₁ + terminalCount l₂ := by
  simp [terminalCount]

theorem noAfter_append_single (l : List LogEntry) (e : LogEntry)
    (h : terminalCount l = 0) : noEntryAfterTerminal (l ++ [e]) = true := by
  induction l with
  | nil =>
      simp only [List.nil_append, noEntryAfterTerminal]
      split <;> simp [List.isEmpty, noEntryAfterTerminal]
  | cons x rest ih =>
      have hx : x.isTerminalEntry = false := by
        by_cases hb : x.isTerminalEntry
        · simp [terminalCount, hb] at h
        · simpa using hb
      simp only [List.cons_append, noEntryAfterTerminal, hx, if_neg, Bool.false_eq_true,
        not_false_iff]
      apply ih
      simpa [terminalCount, hx] using h

/-- Invariant carried along the consumer drain for the status-log shape. -/
theorem consumerFinal_log_shape (env : ConsumerEnv) (stream : List TransferStatus) :
    ∀ s : ConsumerState, terminalCount s.log = 0 →
      terminalCount (consumerFinal env s stream).log ≤ 1 ∧
      noEntryAfterTerminal (consumerFinal env s stream).log = true := by
  induction stream with
  | nil =>
      intro s h
      constructor
      · simp [consumerFinal, h]
      · exact terminalCount_zero_noAfter _ h
  | cons st rest ih =>
      intro s h
      cases st with
      | ready =>
          rw [consumerFinal_ready]
          exact ih _ (by rwa [updateRegistry_log])
      | inProgress tb bc f p eta =>
          rw [consumerFinal_inProgress]
          exact ih _ (by rwa [updateRegistry_log])
      | verifying c t =>
          rw [consumerFinal_verifying]
          exact ih _ (by rwa [updateRegistry_log])
      | copyComplete =>
          rw [consumerFinal_copyComplete]
          apply ih
          rw [appendLog_log, updateRegistry_log, terminalCount_append, h]
          decide
      | complete tb ds =>
          rw [consumerFinal_complete]
          constructor
          · rw [setRegistryNone_log, cleanupCall_log, notifyInline_log, appendLog_log,
              updateRegistry_log, terminalCount_append, h]
            simp [terminalCount, LogEntry.isTerminalEntry]
          · rw [setRegistryNone_log, cleanupCall_log, notifyInline_log, appendLog_log,
              updateRegistry_log]
            exact noAfter_append_single _ _ h
      | failed msg =>
          rw [consumerFinal_failed]
          constructor
          · rw [setRegistryNone_log, notifyInline_log, appendLog_log,
              updateRegistry_log, terminalCount_append, h]
            simp [terminalCount, LogEntry.isTerminalEntry]
          · rw [setRegistryNone_log, notifyInline_log, appendLog_log, updateRegistry_log]
            exact noAfter_append_single _ _ h

/-- C3 For every job, at most one terminal status-log entry (complete or
failed) is ever appended, and no status-log entry of any kind is appended
after a terminal one — for every environment and every stream of statuses
arriving on the progress channel, including streams carrying a second
Failed sent by the producer task after an engine-sent Failed (the consumer
breaks at the first terminal status, so the duplicate is never drained). -/
theorem C3_terminal_log_once (env : ConsumerEnv) (stream : List TransferStatus) :
    terminalCount (runJob env stream).log ≤ 1 ∧
    noEntryAfterTerminal (runJob env stream).log = true := by
  apply consumerFinal_log_shape
  simp [jobInitState, terminalCount, LogEntry.isTerminalEntry]

@[simp] theorem updateRegistry_registry (s : ConsumerState) (st : TransferStatus) :
    (updateRegistry s st).registry = some st := rfl

@[simp] theorem appendLog_registry (s : ConsumerState) (e : LogEntry) :
    (appendLog s e).registry = s.registry := rfl

@[simp] theorem appendLog_actions (s : ConsumerState) (e : LogEntry) :
    (appendLog s e).actions = s.actions := rfl

@[simp] theorem updateRegistry_actions (s : ConsumerState) (st : TransferStatus) :
    (updateRegistry s st).actions = s.actions := rfl

@[simp] theorem consumerBoundary_nil (env : ConsumerEnv) (s : ConsumerState) :
    consumerBoundary env s [] = [] := rfl

@[simp] theorem consumerBoundary_ready (env : ConsumerEnv) (s : ConsumerState)
    (rest : List TransferStatus) :
    consumerBoundary env s (.ready :: rest) =
      updateRegistry s .ready :: consumerBoundary env (updateRegistry s .ready) rest := rfl

@[simp] theorem consumerBoundary_inProgress (env : ConsumerEnv) (s : ConsumerState)
    (tb bc : Nat) (f : String) (p : Nat) (eta : Option Nat)
    (rest : List TransferStatus) :
    consumerBoundary env s (.inProgress tb bc f p eta :: rest) =
      updateRegistry s (.inProgress tb bc f p eta) ::
        consumerBoundary env (updateRegistry s (.inProgress tb bc f p eta)) rest := rfl

@[simp] theorem consumerBoundary_verifying (env : ConsumerEnv) (s : ConsumerState)
    (c t : Nat) (rest : List TransferStatus) :
    consumerBoundary env s (.verifying c t :: rest) =
      updateRegistry s (.verifying c t) ::
        consumerBoundary env (updateRegistry s (.verifying c t)) rest := rfl

@[simp] theorem consumerBoundary_copyComplete (env : ConsumerEnv) (s : ConsumerState)
    (rest : List TransferStatus) :
    consumerBoundary env s (.copyComplete :: rest) =
      appendLog (updateRegistry s .copyComplete) ⟨"copy_complete", none, none, none⟩ ::
        consumerBoundary env
          (appendLog (updateRegistry s .copyComplete) ⟨"copy_complete", none, none, none⟩)
          rest := rfl

@[simp] theorem consumerBoundary_complete (env : ConsumerEnv) (s : ConsumerState)
    (tb ds : Nat) (rest : List TransferStatus) :
    consumerBoundary env s (.complete tb ds :: rest) =
      [{ cleanupCall env
          (notifyInline env
            (appendLog (updateRegistry s (.complete tb ds))
              ⟨"complete", none, some tb, some ds⟩)
            (Action.notifyCompleted false) "Failed to send completion notification")
        with registry := none }] := rfl

@[simp] theorem consumerBoundary_failed (env : ConsumerEnv) (s : ConsumerState)
    (msg : String) (rest : List TransferStatus) :
    consumerBoundary env s (.failed msg :: rest) =
      [{ notifyInline env
          (appendLog (updateRegistry s (.failed msg)) ⟨"failed", some msg, none, none⟩)
          (Action.notifyFailed false) "Failed to send failure notification"
        with registry := none }] := rfl

/-- At every status boundary (state after the consumer has fully processed
one received status), the registry entry for the job is never a terminal
status: terminal statuses end with the entry removed. -/
theorem consumerBoundary_nonterminal (env : ConsumerEnv) (stream : List TransferStatus) :
    ∀ s : ConsumerState, ∀ t ∈ consumerBoundary env s stream,
      registryHoldsTerminal t = false := by
  induction stream with
  | nil => intro s t ht; simp at ht
  | cons st rest ih =>
      intro s t ht
      cases st with
      | ready =>
          rw [consumerBoundary_ready] at ht
          rcases List.mem_cons.mp ht with h | h
          · subst h; rfl
          · exact ih _ t h
      | inProgress tb bc f p eta =>
          rw [consumerBoundary_inProgress] at ht
          rcases List.mem_cons.mp ht with h | h
          · subst h; rfl
          · exact ih _ t h
      | verifying c tt =>
          rw [consumerBoundary_verifying] at ht
          rcases List.mem_cons.mp ht with h | h
          · subst h; rfl
          · exact ih _ t h
      | copyComplete =>
          rw [consumerBoundary_copyComplete] at ht
          rcases List.mem_cons.mp ht with h | h
          · subst h; rfl
          · exact ih _ t h
      | complete tb ds =>
          rw [consumerBoundary_complete] at ht
          rcases List.mem_cons.mp ht with h | h
          · subst h; rfl
          · simp at h
      | failed msg =>
          rw [consumerBoundary_failed] at ht
          rcases List.mem_cons.mp ht with h | h
          · subst h; rfl
          · simp at h

/-- Once the stream carries a terminal status, the consumer ends with the
job removed from the progress registry. -/
theorem consumerFinal_terminal_removed (env : ConsumerEnv) (stream : List TransferStatus) :
    ∀ s : ConsumerState, (∃ st ∈ stream, st.isTerminal = true) →
      (consumerFinal env s stream).registry = none := by
  induction stream with
  | nil => intro s h; rcases h with ⟨st, hmem, _⟩; simp at hmem
  | cons st rest ih =>
      intro s h
      cases st with
      | complete tb ds => rw [consumerFinal_complete]
      | failed msg => rw [consumerFinal_failed]
      | ready =>
          rw [consumerFinal_ready]
          apply ih
          rcases h with ⟨x, hmem, hterm⟩
          rcases List.mem_cons.mp hmem with h1 | h1
          · subst h1; simp [TransferStatus.isTerminal] at hterm
          · exact ⟨x, h1, hterm⟩
      | inProgress tb bc f p eta =>
          rw [consumerFinal_inProgress]
          apply ih
          rcases h with ⟨x, hmem, hterm⟩
          rcases List.mem_cons.mp hmem with h1 | h1
          · subst h1; simp [TransferStatus.isTerminal] at hterm
          · exact ⟨x, h1, hterm⟩
      | verifying c t =>
          rw [consumerFinal_verifying]
          apply ih
          rcases h with ⟨x, hmem, hterm⟩
          rcases List.mem_cons.mp hmem with h1 | h1
          · subst h1; simp [TransferStatus.isTerminal] at hterm
          · exact ⟨x, h1, hterm⟩
      | copyComplete =>
          rw [consumerFinal_copyComplete]
          apply ih
          rcases h with ⟨x, hmem, hterm⟩
          rcases List.mem_cons.mp hmem with h1 | h1
          · subst h1; simp [TransferStatus.isTerminal] at hterm
          · exact ⟨x, h1, hterm⟩

/-- C5 (counterexample) The claim says every reachable state of the
consumer task keeps only non-terminal statuses in the progress registry.
It is false: processing the stream consisting of the single status
Failed "e" passes through a reachable micro-state (right after
`progress_tracker.update`, before the registry removal) in which the
registry holds the terminal status. -/
theorem C5_registry_terminal_counterexample :
    (consumerTrace ⟨true, true, true⟩ (jobInitState ⟨true, true, true⟩)
        [.failed "e"]).any registryHoldsTerminal = true := by decide

/-- C5 (amended) At every status boundary of the consumer task the job's
registry entry is non-terminal, and once a terminal status arrives the job
is removed from the registry by the end of its processing; only strictly
inside the processing of the terminal status (between the unconditional
`progress_tracker.update` and the later `remove`) does the registry
transiently hold the terminal status. -/
theorem C5_registry_nonterminal_at_boundaries (env : ConsumerEnv)
    (stream : List TransferStatus) :
    (∀ t ∈ consumerBoundary env (jobInitState env) stream,
      registryHoldsTerminal t = false) ∧
    ((∃ st ∈ stream, st.isTerminal = true) →
      (consumerFinal env (jobInitState env) stream).registry = none) :=
  ⟨consumerBoundary_nonterminal env stream (jobInitState env),
   consumerFinal_terminal_removed env stream (jobInitState env)⟩

/-- Witness for C5 (amended) at the concrete stream `[Failed "e"]`. -/
theorem C5_registry_nonterminal_witness :
    (consumerFinal ⟨true, true, true⟩ (jobInitState ⟨true, true, true⟩)
      [.failed "e"]).registry = none :=
  (C5_registry_nonterminal_at_boundaries ⟨true, true, true⟩ [.failed "e"]).2
    ⟨.failed "e", by decide⟩

/-- Dispatch mode the orchestrator uses for each recorded action: the
started notification is spawned detached, while the completion and failure
notifications are awaited inline by the consumer task. -/
def notifyDispatchOk : Action → Bool
  | .notifyStarted b => b
  | .notifyCompleted b => !b
  | .notifyFailed b => !b
  | .cleanupDevice => true

theorem ObsEq.updateRegistry_mono {s t : ConsumerState} (h : ObsEq s t)
    (st : TransferStatus) : ObsEq (updateRegistry s st) (updateRegistry t st) :=
  ⟨rfl, h.2.1, h.2.2⟩

theorem ObsEq.appendLog_mono {s t : ConsumerState} (h : ObsEq s t) (e : LogEntry) :
    ObsEq (appendLog s e) (appendLog t e) :=
  ⟨h.1, by rw [appendLog_log, appendLog_log, h.2.1], h.2.2⟩

theorem ObsEq.notifyInline_mono {e1 e2 : ConsumerEnv}
    (hc : e1.notifierConfigured = e2.notifierConfigured)
    {s t : ConsumerState} (h : ObsEq s t) (a : Action) (m : String) :
    ObsEq (notifyInline e1 s a m) (notifyInline e2 t a m) := by
  refine ⟨?_, ?_, ?_⟩
  · rw [notifyInline_registry, notifyInline_registry]; exact h.1
  · rw [notifyInline_log, notifyInline_log]; exact h.2.1
  · rw [notifyInline_actions, notifyInline_actions, h.2.2, hc]

theorem ObsEq.cleanupCall_mono {e1 e2 : ConsumerEnv} {s t : ConsumerState}
    (h : ObsEq s t) : ObsEq (cleanupCall e1 s) (cleanupCall e2 t) := by
  refine ⟨?_, ?_, ?_⟩
  · rw [cleanupCall_registry, cleanupCall_registry]; exact h.1
  · rw [cleanupCall_log, cleanupCall_log]; exact h.2.1
  · rw [cleanupCall_actions, cleanupCall_actions, h.2.2]

theorem ObsEq.setRegistryNone_mono {s t : ConsumerState} (h : ObsEq s t) :
    ObsEq ({ s with registry := none }) ({ t with registry := none }) :=
  ⟨rfl, h.2.1, h.2.2⟩

/-- The registry entry, status log and action trace produced by the
consumer do not depend on the outcomes of the notifier and cleanup calls
(only the logged warnings do). -/
theorem consumerFinal_obs_independent (e1 e2 : ConsumerEnv)
    (hc : e1.notifierConfigured = e2.notifierConfigured)
    (stream : List TransferStatus) :
    ∀ s t : ConsumerState, ObsEq s t →
      ObsEq (consumerFinal e1 s stream) (consumerFinal e2 t stream) := by
  induction stream with
  | nil => intro s t h; simpa using h
  | cons st rest ih =>
      intro s t h
      cases st with
      | ready =>
          rw [consumerFinal_ready, consumerFinal_ready]
          exact ih _ _ (h.updateRegistry_mono _)
      | inProgress tb bc f p eta =>
          rw [consumerFinal_inProgress, consumerFinal_inProgress]
          exact ih _ _ (h.updateRegistry_mono _)
      | verifying c tt =>
          rw [consumerFinal_verifying, consumerFinal_verifying]
          exact ih _ _ (h.updateRegistry_mono _)
      | copyComplete =>
          rw [consumerFinal_copyComplete, consumerFinal_copyComplete]
          exact ih _ _ ((h.updateRegistry_mono _).appendLog_mono _)
      | complete tb ds =>
          rw [consumerFinal_complete, consumerFinal_complete]
          exact ObsEq.setRegistryNone_mono
            (ObsEq.cleanupCall_mono
              (ObsEq.notifyInline_mono hc
                ((h.updateRegistry_mono _).appendLog_mono _) _ _))
      | failed msg =>
          rw [consumerFinal_failed, consumerFinal_failed]
          exact ObsEq.setRegistryNone_mono
            (ObsEq.notifyInline_mono hc
              ((h.updateRegistry_mono _).appendLog_mono _) _ _)

theorem dispatchOk_append {l₁ l₂ : List Action}
    (h₁ : ∀ a ∈ l₁, notifyDispatchOk a = true)
    (h₂ : ∀ a ∈ l₂, notifyDispatchOk a = true) :
    ∀ a ∈ l₁ ++ l₂, notifyDispatchOk a = true := by
  intro a ha
  rcases List.mem_append.mp ha with h | h
  · exact h₁ a h
  · exact h₂ a h

/-- Every action the consumer appends carries the dispatch mode the code
uses (inline completions and failures, detached start). -/
theorem consumerFinal_dispatch (env : ConsumerEnv) (stream : List TransferStatus) :
    ∀ s : ConsumerState, (∀ a ∈ s.actions, notifyDispatchOk a = true) →
      ∀ a ∈ (consumerFinal env s stream).actions, notifyDispatchOk a = true := by
  induction stream with
  | nil => intro s h; simpa using h
  | cons st rest ih =>
      intro s h
      cases st with
      | ready =>
          rw [consumerFinal_ready]
          exact ih _ (by rwa [updateRegistry_actions])
      | inProgress tb bc f p eta =>
          rw [consumerFinal_inProgress]
          exact ih _ (by rwa [updateRegistry_actions])
      | verifying c tt =>
          rw [consumerFinal_verifying]
          exact ih _ (by rwa [updateRegistry_actions])
      | copyComplete =>
          rw [consumerFinal_copyComplete]
          exact ih _ (by rwa [appendLog_actions, updateRegistry_actions])
      | complete tb ds =>
          rw [consumerFinal_complete, setRegistryNone_actions, cleanupCall_actions,
            notifyInline_actions, appendLog_actions, updateRegistry_actions]
          apply dispatchOk_append
          · apply dispatchOk_append h
            intro a ha
            split at ha
            · simp at ha; subst ha; rfl
            · simp at ha
          · intro a ha
            simp at ha; subst ha; rfl
      | failed msg =>
          rw [consumerFinal_failed, setRegistryNone_actions,
            notifyInline_actions, appendLog_actions, updateRegistry_actions]
          apply dispatchOk_append h
          intro a ha
          split at ha
          · simp at ha; subst ha; rfl
          · simp at ha

/-- C8 (counterexample) The claim says every notification is dispatched
from a detached task.  It is false for the completion notification: at the
concrete stream `[Complete 5 1]` with a configured notifier the consumer
performs the completion notify inline (detached = false), and no detached
completion notify occurs. -/
theorem C8_notify_detached_counterexample :
    Action.notifyCompleted false ∈ (runJob ⟨true, true, true⟩ [.complete 5 1]).actions ∧
    Action.notifyCompleted true ∉ (runJob ⟨true, true, true⟩ [.complete 5 1]).actions := by
  decide

/-- C8 (amended) Only the started notification is dispatched from a
detached task; the completion and failure notifications are awaited inline
by the consumer task.  Every notification failure is logged and dropped:
the job's status log, registry entry, and notifier/cleanup action trace
(in particular the terminal status-log entry, the `cleanup_device` call and
the progress-registry removal) are identical whatever the notifier and
cleanup calls return. -/
theorem C8_notifications_best_effort (e1 e2 : ConsumerEnv)
    (stream : List TransferStatus)
    (hc : e1.notifierConfigured = e2.notifierConfigured) :
    ObsEq (runJob e1 stream) (runJob e2 stream) ∧
    (∀ a ∈ (runJob e1 stream).actions, notifyDispatchOk a = true) := by
  constructor
  · apply consumerFinal_obs_independent e1 e2 hc
    refine ⟨rfl, rfl, ?_⟩
    simp only [jobInitState, hc]
  · apply consumerFinal_dispatch
    intro a ha
    simp only [jobInitState] at ha
    split at ha
    · simp at ha; subst ha; rfl
    · simp at ha

/-- Witness for C8 (amended): the observable job outcome at the concrete
stream `[Complete 5 1]` is the same when the notifier call fails as when it
succeeds. -/
theorem C8_notifications_witness :
    ObsEq (runJob ⟨true, true, true⟩ [.complete 5 1])
      (runJob ⟨true, false, false⟩ [.complete 5 1]) :=
  (C8_notifications_best_effort ⟨true, true, true⟩ ⟨true, false, false⟩
    [.complete 5 1] rfl).1

/-! Native copy engine progress loop,
src/src/core/transfer_engine/native_copy.rs (`copy_files_with_progress`). -/

/-- `PROGRESS_UPDATE_INTERVAL` from native_copy.rs line 20 (1 MiB). -/
def PROGRESS_UPDATE_INTERVAL : Nat := 1024 * 1024

/-- The percentage computed in `copy_files_with_progress` (native_copy.rs
lines 390-394): `((bytes_copied as f64 / total_bytes as f64) * 100.0) as u8`
when `total_bytes > 0`, else `100`.  The f64 quotient is modelled as the
exact rational value `100 * bytes / total`; the `as u8` cast truncates the
float toward zero and saturates at 255 and 0, which on naturals is
`min 255 (100 * bytes / total)` with Nat (floor) division.  The f64
rounding error of the division (below one part in 2^52 here) is not
modelled; it cannot bridge the gap between the values of interest
(at or below 100 versus above 100). -/
def progressPercentage (bytesCopied totalBytes : Nat) : Nat :=
  if totalBytes > 0 then min 255 ((100 * bytesCopied) / totalBytes) else 100

/-- Outcome of one `copy_single_file` call as seen by the loop: the number
of bytes actually read and written on success (which can differ from the
scanned size when the file changed between scan and copy), or an error with
its device-removed classification. -/
inductive FileCopyOutcome where
  | ok (bytes : Nat)
  | err (isDeviceRemoved : Bool) (message : String)
  deriving DecidableEq, Repr

/-- One file of the scanned list together with its copy outcome. -/
structure CopyFile where
  relativePath : String
  outcome : FileCopyOutcome
  deriving DecidableEq, Repr

/-- Mutable state of the copy loop: `bytes_copied`,
`last_progress_update`, the collected non-fatal `errors`, the statuses sent
on the progress channel, and the per-file byte counts written into the
destination. -/
structure CopyLoopState where
  bytesCopied : Nat
  lastProgressUpdate : Nat
  errors : List (String × String)
  sent : List TransferStatus
  copied : List (String × Nat)
  deriving DecidableEq, Repr

/-- Loop entry state. -/
def initCopyState : CopyLoopState := ⟨0, 0, [], [], []⟩

/-- The post-loop error summary of `copy_files_with_progress`
(native_copy.rs lines 430-449). -/
def copyErrorSummary (errors : List (String × String)) : String :=
  let base := "Transfer completed with " ++ toString errors.length ++ " error(s):\n" ++
    String.intercalate "\n" ((errors.take 10).map (fun e => "  - " ++ e.1 ++ ": " ++ e.2))
  if errors.length > 10 then
    base ++ "\n  ... and " ++ toString (errors.length - 10) ++ " more errors"
  else base

/-- The loop of `copy_files_with_progress` (native_copy.rs lines 367-453):
per file, on success add the returned bytes and send an `InProgress` status
when at least `PROGRESS_UPDATE_INTERVAL` bytes accumulated since the last
send or the scanned total is exactly reached; a device-removed error aborts
the whole transfer; other errors are collected and the loop continues;
after the loop a non-empty error list fails the transfer with a summary. -/
def copy_files_with_progress (totalBytes : Nat) :
    CopyLoopState → List CopyFile → CopyLoopState × Except String Nat
  | st, [] =>
      if st.errors.isEmpty then (st, Except.ok st.bytesCopied)
      else (st, Except.error (copyErrorSummary st.errors))
  | st, f :: rest =>
      match f.outcome with
      | .err true _ =>
          (st, Except.error ("Device removed during transfer at file: " ++ f.relativePath))
      | .err false msg =>
          copy_files_with_progress totalBytes
            { st with errors := st.errors ++ [(f.relativePath, msg)] } rest
      | .ok fileBytes =>
          let bytes := st.bytesCopied + fileBytes
          if PROGRESS_UPDATE_INTERVAL ≤ bytes - st.lastProgressUpdate ∨ bytes = totalBytes then
            copy_files_with_progress totalBytes
              { st with
                bytesCopied := bytes
                lastProgressUpdate := bytes
                copied := st.copied ++ [(f.relativePath, fileBytes)]
                sent := st.sent ++ [TransferStatus.inProgress totalBytes bytes f.relativePath
                  (progressPercentage bytes totalBytes) none] } rest
          else
            copy_files_with_progress totalBytes
              { st with
                bytesCopied := bytes
                copied := st.copied ++ [(f.relativePath, fileBytes)] } rest

/-- The percentages carried by the `InProgress` statuses of a stream, in
send order. -/
def sentPercentages (l : List TransferStatus) : List Nat :=
  l.filterMap fun st =>
    match st with
    | .inProgress _ _ _ p _ => some p
    | _ => none

example :
    (copy_files_with_progress 1048576 initCopyState
      [⟨"a", .ok 524288⟩, ⟨"b", .ok 524288⟩]).1.sent =
      [.inProgress 1048576 1048576 "b" 100 none] := by decide

example :
    (copy_files_with_progress 0 initCopyState [⟨"a", .ok 0⟩]).1.sent =
      [.inProgress 0 0 "a" 100 none] := by decide

theorem progressPercentage_mono (t : Nat) {b1 b2 : Nat} (h : b1 ≤ b2) :
    progressPercentage b1 t ≤ progressPercentage b2 t := by
  unfold progressPercentage
  split
  · exact min_le_min (Nat.le_refl 255)
      (Nat.div_le_div_right (Nat.mul_le_mul (Nat.le_refl 100) h))
  · exact Nat.le_refl 100

theorem progressPercentage_le_100 {t b : Nat} (h : b ≤ t) :
    progressPercentage b t ≤ 100 := by
  unfold progressPercentage
  split
  · rename_i ht
    refine Nat.le_trans (Nat.min_le_right _ _) ?_
    calc 100 * b / t ≤ 100 * t / t :=
          Nat.div_le_div_right (Nat.mul_le_mul (Nat.le_refl 100) h)
      _ = 100 := Nat.mul_div_cancel 100 ht
  · exact Nat.le_refl 100

theorem sentPercentages_append (l₁ l₂ : List TransferStatus) :
    sentPercentages (l₁ ++ l₂) = sentPercentages l₁ ++ sentPercentages l₂ := by
  simp [sentPercentages, List.filterMap_append]

/-- Shape invariant for the statuses sent by the copy loop: every sent
status is an `InProgress` carrying the percentage of its byte count, and
byte counts never exceed the running `bytes_copied`. -/
def sentWellFormed (t : Nat) (st : CopyLoopState) : Prop :=
  (∀ x ∈ st.sent, ∃ b f,
      x = TransferStatus.inProgress t b f (progressPercentage b t) none ∧
      b ≤ st.bytesCopied) ∧
  List.Chain' (· ≤ ·) (sentPercentages st.sent)

theorem sentPercentages_le {t bound : Nat} {sent : List TransferStatus}
    (h : ∀ x ∈ sent, ∃ b f,
        x = TransferStatus.inProgress t b f (progressPercentage b t) none ∧ b ≤ bound) :
    ∀ p ∈ sentPercentages sent, p ≤ progressPercentage bound t := by
  intro p hp
  rcases List.mem_filterMap.mp hp with ⟨x, hx, hm⟩
  rcases h x hx with ⟨b, f, rfl, hb⟩
  have hm2 : some (progressPercentage b t) = some p := hm
  rw [← Option.some.inj hm2]
  exact progressPercentage_mono t hb

/-- The copy loop preserves the sent-status shape invariant. -/
theorem copy_files_invariant (t : Nat) (files : List CopyFile) :
    ∀ st : CopyLoopState, sentWellFormed t st →
      sentWellFormed t (copy_files_with_progress t st files).1 := by
  induction files with
  | nil =>
      intro st h
      unfold copy_files_with_progress
      split <;> exact h
  | cons f rest ih =>
      intro st h
      obtain ⟨rp, outc⟩ := f
      cases outc with
      | err dr m =>
          cases dr
          · exact ih _ ⟨h.1, h.2⟩
          · exact h
      | ok fb =>
          show sentWellFormed t (copy_files_with_progress t st (⟨rp, .ok fb⟩ :: rest)).1
          unfold copy_files_with_progress
          dsimp only
          split
          · apply ih
            constructor
            · intro x hx
              rcases List.mem_append.mp hx with hx | hx
              · rcases h.1 x hx with ⟨b, g, hxe, hb⟩
                exact ⟨b, g, hxe, Nat.le_trans hb (Nat.le_add_right _ _)⟩
              · rw [List.mem_singleton.mp hx]
                exact ⟨st.bytesCopied + fb, rp, rfl, Nat.le_refl _⟩
            · rw [sentPercentages_append]
              refine List.Chain'.append h.2 (List.chain'_singleton _) ?_
              intro x hx y hy
              have hy2 : y = progressPercentage (st.bytesCopied + fb) t := by
                have : some y = some (progressPercentage (st.bytesCopied + fb) t) := hy.symm
                exact Option.some.inj this
              rcases List.mem_getLast?_eq_getLast hx with ⟨hne, hxl⟩
              have hxmem : x ∈ sentPercentages st.sent := hxl ▸ List.getLast_mem hne
              have hxle := sentPercentages_le h.1 x hxmem
              rw [hy2]
              exact Nat.le_trans hxle (progressPercentage_mono t (Nat.le_add_right _ _))
          · apply ih
            refine ⟨?_, h.2⟩
            intro x hx
            rcases h.1 x hx with ⟨b, g, hxe, hb⟩
            exact ⟨b, g, hxe, Nat.le_trans hb (Nat.le_add_right _ _)⟩

/-- C9 (counterexample) The claim says every emitted percentage lies in
[0, 100].  It is false when `bytes_copied` exceeds the scanned
`total_bytes` (the file grew between scan and copy): with a scanned total
of 1 MiB and an actual file of 3 MiB the loop emits percentage 255 (the
saturated `as u8` cast of 300), not a value clamped to 100. -/
theorem C9_percentage_overflow_counterexample :
    (copy_files_with_progress 1048576 initCopyState
        [⟨"a", .ok 3145728⟩]).1.sent =
      [TransferStatus.inProgress 1048576 3145728 "a" 255 none] ∧
    100 < 255 := by decide

/-- C9 (amended) Every `in_progress` percentage emitted by the native copy
loop equals `min 255 ⌊100 * bytes_copied / total_bytes⌋` (100 when
`total_bytes = 0`; the `as u8` cast saturates at 255 instead of clamping at
100), within a single job stream the percentages are monotonically
non-decreasing for every sequence of per-file byte counts, and whenever
`bytes_copied ≤ total_bytes` the emitted value is at most 100. -/
theorem C9_percentage_formula_and_monotone (t : Nat) (files : List CopyFile) :
    (∀ x ∈ (copy_files_with_progress t initCopyState files).1.sent,
        ∃ b f, x = TransferStatus.inProgress t b f (progressPercentage b t) none) ∧
    List.Chain' (· ≤ ·)
      (sentPercentages (copy_files_with_progress t initCopyState files).1.sent) ∧
    (∀ b, b ≤ t → progressPercentage b t ≤ 100) := by
  have h0 : sentWellFormed t initCopyState := by
    constructor
    · intro x hx; simp [initCopyState] at hx
    · simp [initCopyState, sentPercentages]
  have h := copy_files_invariant t files initCopyState h0
  refine ⟨?_, h.2, fun b hb => progressPercentage_le_100 hb⟩
  intro x hx
  rcases h.1 x hx with ⟨b, f, hxe, _⟩
  exact ⟨b, f, hxe⟩

/-- Witness for C9 (amended) at a concrete two-file run crossing the 1 MiB
progress threshold twice. -/
theorem C9_percentage_witness :
    List.Chain' (· ≤ ·) (sentPercentages
      (copy_files_with_progress 2097152 initCopyState
        [⟨"a", .ok 1048576⟩, ⟨"b", .ok 1048576⟩]).1.sent) :=
  (C9_percentage_formula_and_monotone 2097152
    [⟨"a", .ok 1048576⟩, ⟨"b", .ok 1048576⟩]).2.1

/-! Device-removed classification, native_copy.rs lines 585-610. -/

/-- The `std::io::ErrorKind` values distinguished by
`is_device_removed_error`; every kind not named in the Rust match falls
into `other` (its `_` arm), tagged to keep the kinds distinct. -/
inductive IoErrorKind where
  | notFound
  | permissionDenied
  | brokenPipe
  | connectionReset
  | connectionAborted
  | notConnected
  | other (tag : Nat)
  deriving DecidableEq, Repr

/-- An I/O error value as consumed by `is_device_removed_error`: its
`kind()` and its `raw_os_error()` (the errno, when the error carries one). -/
structure IoError where
  kind : IoErrorKind
  rawOsError : Option Int
  deriving DecidableEq, Repr

/-- libc errno constants referenced by the classifier (Linux values). -/
def EIO : Int := 5

def ENXIO : Int := 6

def ENODEV : Int := 19

def ENOMEDIUM : Int := 123

def EMEDIUMTYPE : Int := 124

/-- `is_device_removed_error` from native_copy.rs lines 585-610: a match on
the error kind, with `PermissionDenied` answered `false` before the errno
test, and the errno test only reached through the wildcard arm. -/
def is_device_removed_error (e : IoError) : Bool :=
  match e.kind with
  | .notFound => true
  | .permissionDenied => false
  | .brokenPipe => true
  | .connectionReset => true
  | .connectionAborted => true
  | .notConnected => true
  | .other _ =>
      match e.rawOsError with
      | some c => c == EIO || c == ENODEV || c == ENXIO || c == ENOMEDIUM || c == EMEDIUMTYPE
      | none => false

/-- Membership of an error kind in the set the claim lists. -/
def kindInClaimSet : IoErrorKind → Bool
  | .notFound => true
  | .brokenPipe => true
  | .connectionReset => true
  | .connectionAborted => true
  | .notConnected => true
  | _ => false

/-- Whether an error kind is `PermissionDenied`. -/
def isPermissionDenied : IoErrorKind → Bool
  | .permissionDenied => true
  | _ => false

/-- The classification the claim states (spec section 4.3): device-removed
iff the kind is in the listed set OR the errno is in the listed set, as a
plain disjunction. -/
def claimDeviceRemoved (e : IoError) : Bool :=
  kindInClaimSet e.kind ||
  (match e.rawOsError with
   | some c => c == EIO || c == ENODEV || c == ENXIO || c == ENOMEDIUM || c == EMEDIUMTYPE
   | none => false)

/-- C6 (counterexample) The claim says the classifier is the plain
disjunction of the kind test and the errno test, naming the
permission-denied-with-EIO edge input.  At exactly that input the code
answers false (the `PermissionDenied` arm short-circuits before the errno
test) while the claimed disjunction answers true. -/
theorem C6_classifier_counterexample :
    is_device_removed_error ⟨.permissionDenied, some 5⟩ = false ∧
    claimDeviceRemoved ⟨.permissionDenied, some 5⟩ = true := by decide

/-- C6 (amended) The classifier equals the claimed disjunction except on
errors of permission-denied kind, which are never classified as
device-removed regardless of their errno. -/
theorem C6_classifier_characterization (e : IoError) :
    is_device_removed_error e =
      (claimDeviceRemoved e && !(isPermissionDenied e.kind)) := by
  obtain ⟨k, r⟩ := e
  cases k <;> cases r <;>
    simp [is_device_removed_error, claimDeviceRemoved, kindInClaimSet, isPermissionDenied]

/-! Linux adapter cleanup, src/src/adapters/linux.rs lines 191-230. -/

/-- Membership test of a UUID in the adapter mount table
(`mounted_by_us.contains_key`), with the HashMap modelled as an
association list. -/
def uuidInTable (uuid : String) (table : List (String × String)) : Bool :=
  table.any fun p => p.1 == uuid

/-- `mounted_by_us.remove(uuid)` on the association-list model. -/
def removeUuid (uuid : String) (table : List (String × String)) :
    List (String × String) :=
  table.filter fun p => !(p.1 == uuid)

deriving instance DecidableEq for Except

/-- Outcomes of the system calls `cleanup_device` makes. -/
structure CleanupEnv where
  /-- result of `sync_filesystem(&device.mount_point)` (syncfs) -/
  syncOk : Bool
  /-- result of `umount2(mount_point, MNT_DETACH)` -/
  umountOk : Bool
  deriving DecidableEq, Repr

/-- Result and side effects of one `cleanup_device` call. -/
structure CleanupResult where
  result : Except String Unit
  unmountAttempted : Bool
  removeDirAttempted : Bool
  mountedByUs : List (String × String)
  deriving DecidableEq, Repr

/-- `cleanup_device` from linux.rs lines 191-230: sync the filesystem
first (propagating a failure), then unmount lazily only when the UUID is
in `mounted_by_us`; on unmount success remove the table entry and attempt
removal of the mount directory (whose own failure is ignored via `let _`);
an unmount failure propagates with the entry left in place. -/
def cleanup_device (env : CleanupEnv) (table : List (String × String))
    (uuid mountPoint : String) : CleanupResult :=
  if env.syncOk = false then
    { result := Except.error ("syncfs failed for " ++ mountPoint)
      unmountAttempted := false
      removeDirAttempted := false
      mountedByUs := table }
  else if uuidInTable uuid table then
    if env.umountOk then
      { result := Except.ok ()
        unmountAttempted := true
        removeDirAttempted := true
        mountedByUs := removeUuid uuid table }
    else
      { result := Except.error ("Failed to unmount " ++ mountPoint)
        unmountAttempted := true
        removeDirAttempted := false
        mountedByUs := table }
  else
    { result := Except.ok ()
      unmountAttempted := false
      removeDirAttempted := false
      mountedByUs := table }

theorem uuidInTable_removeUuid (uuid : String) (table : List (String × String)) :
    uuidInTable uuid (removeUuid uuid table) = false := by
  simp only [uuidInTable, removeUuid, List.any_eq_true, List.mem_filter]
  simp

/-- C2 (counterexample) The claim says that whenever the UUID is absent
from the mount table, `cleanup_device` returns success without unmounting.
It is false when the preceding filesystem sync fails: with an empty table
(UUID absent) and a failing `syncfs`, the call returns an error, because
the sync runs before the table check and its failure propagates. -/
theorem C2_cleanup_sync_counterexample :
    uuidInTable "u" [] = false ∧
    (cleanup_device ⟨false, true⟩ [] "u" "/run/bksd/u").result =
      Except.error "syncfs failed for /run/bksd/u" := by decide

/-- C2 (amended) Provided the filesystem sync succeeds: the adapter
attempts an unmount iff the device UUID is in `mounted_by_us`; when the
UUID is absent it returns success without unmounting and without touching
the table or the mount directory; when the UUID is present and the lazy
unmount succeeds it returns success with the table entry removed and the
mount-point directory removal attempted. -/
theorem C2_cleanup_table_gates_unmount (env : CleanupEnv)
    (table : List (String × String)) (uuid mp : String)
    (hs : env.syncOk = true) :
    ((cleanup_device env table uuid mp).unmountAttempted = true ↔
      uuidInTable uuid table = true) ∧
    (uuidInTable uuid table = false →
      (cleanup_device env table uuid mp).result = Except.ok () ∧
      (cleanup_device env table uuid mp).unmountAttempted = false ∧
      (cleanup_device env table uuid mp).mountedByUs = table ∧
      (cleanup_device env table uuid mp).removeDirAttempted = false) ∧
    (uuidInTable uuid table = true → env.umountOk = true →
      (cleanup_device env table uuid mp).result = Except.ok () ∧
      uuidInTable uuid (cleanup_device env table uuid mp).mountedByUs = false ∧
      (cleanup_device env table uuid mp).removeDirAttempted = true) := by
  unfold cleanup_device
  rw [hs]
  by_cases ht : uuidInTable uuid table
  · by_cases hu : env.umountOk
    · simp [ht, hu, uuidInTable_removeUuid]
    · simp [ht, hu]
  · simp [ht]

/-- Witness for C2 (amended) at a one-entry table holding the UUID, with
both system calls succeeding. -/
theorem C2_cleanup_witness :
    (cleanup_device ⟨true, true⟩ [("u", "/run/bksd/u")] "u" "/run/bksd/u").result =
        Except.ok () ∧
    uuidInTable "u"
        (cleanup_device ⟨true, true⟩ [("u", "/run/bksd/u")] "u" "/run/bksd/u").mountedByUs =
      false ∧
    (cleanup_device ⟨true, true⟩ [("u", "/run/bksd/u")] "u"
        "/run/bksd/u").removeDirAttempted = true :=
  (C2_cleanup_table_gates_unmount ⟨true, true⟩ [("u", "/run/bksd/u")] "u"
    "/run/bksd/u" rfl).2.2 (by decide) rfl

/-! Source tree model and the scan phase (native_copy.rs lines 213-289). -/

/-- An entry of the source filesystem tree as classified by
`symlink_metadata`: regular files (content as a byte list), directories,
symlinks and other special files (both skipped by the scan). -/
inductive SrcEntry where
  | file (name : String) (content : List Nat)
  | dir (name : String) (children : List SrcEntry)
  | symlink (name : String)
  | special (name : String)

/-- Relative-path join. -/
def joinPath (base name : String) : String :=
  if base = "" then name else base ++ "/" ++ name

mutual
/-- Files collected by `scan_directory_recursive` for one entry: regular
files with their content, recursing into directories, skipping symlinks
and special files.  (The directories vector of `ScanResult`, used only to
create the destination directory skeleton, is not claim-relevant and is
not carried.) -/
def scanEntry (base : String) : SrcEntry → List (String × List Nat)
  | .file n c => [(joinPath base n, c)]
  | .dir n ch => scanChildren (joinPath base n) ch
  | .symlink _ => []
  | .special _ => []

/-- Files collected from a directory listing, in order. -/
def scanChildren (base : String) : List SrcEntry → List (String × List Nat)
  | [] => []
  | e :: rest => scanEntry base e ++ scanChildren base rest
end

/-- Phase-1 scan of the whole source tree: regular files with relative
paths (symlinks and special files excluded). -/
def scanFiles (tree : List SrcEntry) : List (String × List Nat) :=
  scanChildren "" tree

/-- The `total_bytes` accumulated by the scan. -/
def scanTotalBytes (tree : List SrcEntry) : Nat :=
  ((scanFiles tree).map (fun f => f.2.length)).sum

/-- `TransferResult` as declared in src/src/core/transfer_engine.rs lines
33-40: total bytes and duration only — the declaration under src/ carries
no `file_hashes` field (the hashing engine is modelled separately from the
spec, see `SpecTransferResult`). -/
structure TransferResult where
  total_bytes : Nat
  duration_secs : Nat
  deriving DecidableEq, Repr

/-- The destination-exists refusal message both engines format
(native_copy.rs lines 60-63, rsync.rs lines 33-36). -/
def destinationExistsMsg (destPath : String) : String :=
  "Destination already exists: " ++ destPath ++ ". Refusing to overwrite."

/-- Result of one engine `transfer` call: the returned result, the
statuses sent on the progress channel, and the destination directory after
the call (`none` = never created, otherwise the list of files written with
their byte counts). -/
structure EngineRun where
  result : Except String TransferResult
  sent : List TransferStatus
  destAfter : Option (List (String × Nat))
  deriving DecidableEq, Repr

/-- Outcomes of the fallible filesystem operations of the native engine
outside the per-file copy loop. -/
structure NativeEnv where
  /-- error of `scan_directory`, when it fails -/
  scanFail : Option String
  /-- error of `create_directory_structure`, when it fails -/
  mkdirFail : Option String
  /-- outcome of `copy_single_file` per relative path -/
  copyOutcome : String → FileCopyOutcome
  /-- wall-clock duration reported at the end -/
  durationSecs : Nat

/-- `NativeCopyEngine::transfer` (native_copy.rs lines 42-176): send
Ready; refuse an existing destination before creating anything; create the
destination directory; scan; create the directory structure; run the copy
loop; wrap loop errors as `Transfer failed:` and send Failed for every
failure path. -/
def nativeTransfer (env : NativeEnv) (tree : List SrcEntry)
    (destBefore : Option (List (String × Nat))) (destPath : String) : EngineRun :=
  let sent0 := [TransferStatus.ready]
  match destBefore with
  | some d =>
      { result := Except.error (destinationExistsMsg destPath)
        sent := sent0 ++ [TransferStatus.failed (destinationExistsMsg destPath)]
        destAfter := some d }
  | none =>
      match env.scanFail with
      | some e =>
          let msg := "Failed to scan source directory: " ++ e
          { result := Except.error msg
            sent := sent0 ++ [TransferStatus.failed msg]
            destAfter := some [] }
      | none =>
          match env.mkdirFail with
          | some e =>
              let msg := "Failed to create directory structure: " ++ e
              { result := Except.error msg
                sent := sent0 ++ [TransferStatus.failed msg]
                destAfter := some [] }
          | none =>
              let files := (scanFiles tree).map fun f => CopyFile.mk f.1 (env.copyOutcome f.1)
              let run := copy_files_with_progress (scanTotalBytes tree) initCopyState files
              match run.2 with
              | Except.ok bytes =>
                  { result := Except.ok ⟨bytes, env.durationSecs⟩
                    sent := sent0 ++ run.1.sent
                    destAfter := some run.1.copied }
              | Except.error e =>
                  let msg := "Transfer failed: " ++ e
                  { result := Except.error msg
                    sent := sent0 ++ run.1.sent ++ [TransferStatus.failed msg]
                    destAfter := some run.1.copied }

/-- Inputs of the rsync engine: whether the child process spawns, the
`([\d,]+)\s+(\d+)%` captures parsed from its output (cumulative bytes and
percentage), its exit status, and the files the external process writes.
The child process is external to the repository; its behaviour is an
input. -/
structure RsyncEnv where
  spawnOk : Bool
  progressMatches : List (Nat × Nat)
  childExitOk : Bool
  childFiles : List (String × Nat)
  durationSecs : Nat
  deriving DecidableEq, Repr

/-- `RsyncEngine::transfer` (rsync.rs lines 18-162): send Ready; refuse an
existing destination before creating anything; create the destination
directory; spawn rsync (a spawn failure returns an error without sending
Failed); emit one InProgress per regex match (total_bytes 0, empty current
file); on child success return the last observed byte count, else send
Failed and return an error. -/
def rsyncTransfer (env : RsyncEnv)
    (destBefore : Option (List (String × Nat))) (destPath : String) : EngineRun :=
  let sent0 := [TransferStatus.ready]
  match destBefore with
  | some d =>
      { result := Except.error (destinationExistsMsg destPath)
        sent := sent0 ++ [TransferStatus.failed (destinationExistsMsg destPath)]
        destAfter := some d }
  | none =>
      if env.spawnOk = false then
        { result := Except.error "Failed to spawn rsync process: spawn error"
          sent := sent0
          destAfter := some [] }
      else
        let progress := env.progressMatches.map fun m =>
          TransferStatus.inProgress 0 m.1 "" m.2 none
        let lastBytes := ((env.progressMatches.map fun m => m.1).getLast?).getD 0
        if env.childExitOk then
          { result := Except.ok ⟨lastBytes, env.durationSecs⟩
            sent := sent0 ++ progress
            destAfter := some env.childFiles }
        else
          { result := Except.error "Rsync failed with status: exit failure"
            sent := sent0 ++ progress ++
              [TransferStatus.failed "Rsync failed with status: exit failure"]
            destAfter := some env.childFiles }

/-- C4 For both engines, a transfer whose destination already exists fails
immediately with an error message saying the destination already exists,
and the pre-existing destination is left exactly as it was (the existence
check precedes every write). -/
theorem C4_refuse_existing_destination (envN : NativeEnv) (envR : RsyncEnv)
    (tree : List SrcEntry) (d : List (String × Nat)) (destPath : String) :
    (nativeTransfer envN tree (some d) destPath).result =
        Except.error (destinationExistsMsg destPath) ∧
    (nativeTransfer envN tree (some d) destPath).destAfter = some d ∧
    (rsyncTransfer envR (some d) destPath).result =
        Except.error (destinationExistsMsg destPath) ∧
    (rsyncTransfer envR (some d) destPath).destAfter = some d ∧
    (∃ s1 s2, destinationExistsMsg destPath = s1 ++ ("already exists" ++ s2)) := by
  refine ⟨rfl, rfl, rfl, rfl,
    "Destination ", ": " ++ (destPath ++ ". Refusing to overwrite."), ?_⟩
  have hlit : "Destination already exists: " =
      "Destination " ++ "already exists" ++ ": " := by decide
  unfold destinationExistsMsg
  rw [hlit, String.append_assoc, String.append_assoc, String.append_assoc]

/-- A copy-outcome assignment under which every file copies in full with
the given byte count zero (used to instantiate environments in witnesses). -/
def allOkCopyOutcome : String → FileCopyOutcome := fun _ => FileCopyOutcome.ok 0

/-- Witness for C4 at a concrete pre-existing destination. -/
theorem C4_refuse_existing_witness :
    (rsyncTransfer ⟨true, [], true, [], 1⟩ (some [("old.txt", 3)]) "/backups/d/x").result =
      Except.error (destinationExistsMsg "/backups/d/x") :=
  (C4_refuse_existing_destination ⟨none, none, allOkCopyOutcome, 1⟩
    ⟨true, [], true, [], 1⟩ [] [("old.txt", 3)] "/backups/d/x").2.2.1

/-! Inline hashing and the spec-modelled hashing native engine.

The hashing version of the native copy engine is not under src/: the
`TransferResult` declared in src/src/core/transfer_engine.rs has no
`file_hashes` field and src/src/core/transfer_engine/native_copy.rs
computes no hashes, while the callers under src/ (the orchestrator at
src/src/core/orchestrator.rs lines 174-196 and the integration tests in
src/tests/rsync_verification.rs) consume `result.file_hashes` and the
`FileHash` type.  The missing engine is modelled here from spec section
4.3. -/

/-- `BUFFER_SIZE` (native_copy.rs line 17): 128 KiB. -/
def BUFFER_SIZE : Nat := 128 * 1024

/-- One `hasher.update(chunk)` call: the hasher state is modelled as the
absorbed byte stream. -/
def hasherUpdate (state chunk : List Nat) : List Nat := state ++ chunk

/-- One byte of the abstract digest. -/
def digestByte (seed : Nat) (data : List Nat) : Nat :=
  data.foldl (fun a b => (a * 257 + b + 1) % 4294967291) seed % 256

/-- Modelled from the spec: BLAKE3 finalize.  BLAKE3 is an external crate,
not code of this repository; it is abstracted as an executable function of
the absorbed byte stream with 32-byte output (spec: a cryptographic hash
used as a fast content fingerprint; 32-byte output). -/
def blake3Finalize (data : List Nat) : List Nat :=
  (List.range 32).map fun i => digestByte (i + 1) data

/-- Fuel-bounded chunking: peel chunks of size `m + 1` off the front.
Each chunk consumes at least one element, so any fuel at least the list
length yields all chunks. -/
def chunksFuel (m : Nat) : Nat → List Nat → List (List Nat)
  | _, [] => []
  | 0, _ => []
  | fuel + 1, x :: xs =>
      ((x :: xs).take (m + 1)) :: chunksFuel m fuel ((x :: xs).drop (m + 1))

/-- Split a byte list into chunks of size `m + 1` (the successive reads of
a fixed-size buffer loop; the size is passed as a predecessor so the chunk
size is positive by construction). -/
def chunksOfSucc (m : Nat) (l : List Nat) : List (List Nat) :=
  chunksFuel m l.length l

theorem chunksFuel_flatten (m : Nat) :
    ∀ fuel, ∀ l : List Nat, l.length ≤ fuel → (chunksFuel m fuel l).flatten = l := by
  intro fuel
  induction fuel with
  | zero =>
      intro l hl
      have hnil : l = [] := List.eq_nil_of_length_eq_zero (Nat.le_zero.mp hl)
      rw [hnil]
      rfl
  | succ n ih =>
      intro l hl
      match l with
      | [] => rfl
      | x :: xs =>
          rw [chunksFuel]
          rw [List.flatten_cons]
          rw [ih ((x :: xs).drop (m + 1)) ?_]
          · exact List.take_append_drop (m + 1) (x :: xs)
          · simp only [List.length_drop, List.length_cons]
            simp only [List.length_cons] at hl
            omega

theorem chunksOfSucc_flatten (m : Nat) (l : List Nat) :
    (chunksOfSucc m l).flatten = l :=
  chunksFuel_flatten m l.length l (Nat.le_refl _)

theorem foldl_hasherUpdate (l : List (List Nat)) :
    ∀ s : List Nat, l.foldl hasherUpdate s = s ++ l.flatten := by
  induction l with
  | nil => intro s; simp
  | cons c rest ih =>
      intro s
      simp only [List.foldl_cons, List.flatten_cons, hasherUpdate, ih, List.append_assoc]

theorem foldl_chunkBytes (l : List (List Nat)) :
    ∀ n : Nat, l.foldl (fun a c => a + c.length) n = n + l.flatten.length := by
  induction l with
  | nil => intro n; simp
  | cons c rest ih =>
      intro n
      simp only [List.foldl_cons, List.flatten_cons, ih, List.length_append]
      omega

/-- `FileHash` as consumed by the callers under src/
(src/tests/rsync_verification.rs lines 33-40): relative path, 32-byte
BLAKE3 digest, size in bytes. -/
structure FileHash where
  relative_path : String
  hash : List Nat
  size : Nat
  deriving DecidableEq, Repr

/-- Modelled from the spec: `TransferResult` with the optional per-file
hash vector (spec section 3), as consumed by the orchestrator. -/
structure SpecTransferResult where
  total_bytes : Nat
  duration_secs : Nat
  file_hashes : Option (List FileHash)
  deriving DecidableEq, Repr

/-- Modelled from the spec: the hashing `copy_single_file` (spec section
4.3, phase 3): stream the file in `BUFFER_SIZE` chunks, write each chunk
and feed it to the BLAKE3 hasher, and record
`FileHash { relative_path, digest, size }` with the byte count written
accumulated chunk by chunk. -/
def specCopySingleFile (relPath : String) (content : List Nat) : FileHash :=
  ⟨relPath,
   blake3Finalize ((chunksOfSucc (BUFFER_SIZE - 1) content).foldl hasherUpdate []),
   (chunksOfSucc (BUFFER_SIZE - 1) content).foldl (fun a c => a + c.length) 0⟩

/-- The chunk-fed digest and byte count equal the digest and length of the
whole content: feeding the hasher from the copy chunks loses nothing. -/
theorem specCopySingleFile_eq (relPath : String) (content : List Nat) :
    specCopySingleFile relPath content =
      ⟨relPath, blake3Finalize content, content.length⟩ := by
  unfold specCopySingleFile
  rw [foldl_hasherUpdate, foldl_chunkBytes, chunksOfSucc_flatten]
  simp

/-- The recorded hashes of a scanned file list: one per regular file. -/
def scannedHashes (tree : List SrcEntry) : List FileHash :=
  (scanFiles tree).map fun f => ⟨f.1, blake3Finalize f.2, f.2.length⟩

/-- Per-file outcome for the spec-modelled engine: the copy succeeds in
full, or fails with a device-removed classification. -/
inductive SpecFileOutcome where
  | ok
  | err (isDeviceRemoved : Bool) (message : String)
  deriving DecidableEq, Repr

/-- State of the spec-modelled copy loop. -/
structure SpecCopyState where
  hashes : List FileHash
  bytesCopied : Nat
  errors : List (String × String)
  deriving DecidableEq, Repr

/-- Modelled from the spec: the hashing copy loop (spec section 4.3): per
file, a successful copy records its `FileHash` and adds its bytes; a
device-removed error aborts the transfer; other errors are collected and
the loop continues.  (Progress emission is covered by the src copy loop
`copy_files_with_progress`.) -/
def specCopyFiles (outcome : String → SpecFileOutcome) :
    SpecCopyState → List (String × List Nat) → SpecCopyState × Option String
  | st, [] => (st, none)
  | st, f :: rest =>
      match outcome f.1 with
      | .ok =>
          let fh := specCopySingleFile f.1 f.2
          specCopyFiles outcome
            { st with
              hashes := st.hashes ++ [fh]
              bytesCopied := st.bytesCopied + fh.size } rest
      | .err true _ =>
          (st, some ("Device removed during transfer at file: " ++ f.1))
      | .err false m =>
          specCopyFiles outcome { st with errors := st.errors ++ [(f.1, m)] } rest

/-- Modelled from the spec: the hashing native transfer (spec sections 4.3
and its Output paragraph): refuse an existing destination, scan, copy all
regular files with inline hashing, and on success return
`TransferResult { total_bytes, duration_secs, file_hashes: some(list) }`;
a device-removed abort or a non-empty error list fails the transfer. -/
def spec_native_transfer (outcome : String → SpecFileOutcome) (durationSecs : Nat)
    (tree : List SrcEntry) (destExists : Bool) (destPath : String) :
    Except String SpecTransferResult :=
  if destExists then Except.error (destinationExistsMsg destPath)
  else
    match (specCopyFiles outcome ⟨[], 0, []⟩ (scanFiles tree)).2 with
    | some m => Except.error ("Transfer failed: " ++ m)
    | none =>
        if (specCopyFiles outcome ⟨[], 0, []⟩ (scanFiles tree)).1.errors.isEmpty then
          Except.ok
            ⟨(specCopyFiles outcome ⟨[], 0, []⟩ (scanFiles tree)).1.bytesCopied,
             durationSecs,
             some (specCopyFiles outcome ⟨[], 0, []⟩ (scanFiles tree)).1.hashes⟩
        else
          Except.error ("Transfer failed: " ++
            copyErrorSummary (specCopyFiles outcome ⟨[], 0, []⟩ (scanFiles tree)).1.errors)

theorem specCopyFiles_errors_grow (outcome : String → SpecFileOutcome)
    (files : List (String × List Nat)) :
    ∀ st : SpecCopyState, ∃ extra,
      (specCopyFiles outcome st files).1.errors = st.errors ++ extra := by
  induction files with
  | nil => intro st; exact ⟨[], by simp [specCopyFiles]⟩
  | cons f rest ih =>
      intro st
      cases ho : outcome f.1 with
      | ok =>
          simp only [specCopyFiles, ho]
          exact ih _
      | err d m =>
          cases d
          · simp only [specCopyFiles, ho]
            rcases ih { st with errors := st.errors ++ [(f.1, m)] } with ⟨extra, he⟩
            exact ⟨(f.1, m) :: extra, by rw [he]; simp⟩
          · simp only [specCopyFiles, ho]
            exact ⟨[], by simp⟩

/-- When the loop neither aborts nor collects an error, it records exactly
one `FileHash` per scanned file, in order. -/
theorem specCopyFiles_success_hashes (outcome : String → SpecFileOutcome)
    (files : List (String × List Nat)) :
    ∀ st : SpecCopyState,
      (specCopyFiles outcome st files).2 = none →
      (specCopyFiles outcome st files).1.errors = st.errors →
      (specCopyFiles outcome st files).1.hashes =
        st.hashes ++ files.map (fun f => specCopySingleFile f.1 f.2) := by
  induction files with
  | nil => intro st _ _; simp [specCopyFiles]
  | cons f rest ih =>
      intro st habort herr
      cases ho : outcome f.1 with
      | ok =>
          simp only [specCopyFiles, ho] at habort herr ⊢
          rw [ih _ habort herr]
          simp
      | err d m =>
          cases d
          · simp only [specCopyFiles, ho] at habort herr ⊢
            exfalso
            rcases specCopyFiles_errors_grow outcome rest
              { st with errors := st.errors ++ [(f.1, m)] } with ⟨extra, he⟩
            rw [he] at herr
            have hlen : st.errors.length =
                ((st.errors ++ [(f.1, m)]) ++ extra).length := by
              conv_lhs => rw [← herr]
            simp [List.length_append] at hlen
          · simp only [specCopyFiles, ho] at habort
            exact absurd habort (by simp)

/-- C1 Every successful spec-modelled native transfer returns
`file_hashes = some(list)` holding exactly one `FileHash` per regular file
of the source tree (symlinks and special files excluded by the scan), in
scan order, whose digest is the 32-byte BLAKE3 digest of the file content
accumulated from the copy chunks, and whose size is the content length. -/
theorem C1_file_hashes_exactly_per_file (outcome : String → SpecFileOutcome)
    (dur : Nat) (tree : List SrcEntry) (destExists : Bool) (destPath : String)
    (r : SpecTransferResult)
    (h : spec_native_transfer outcome dur tree destExists destPath = Except.ok r) :
    r.file_hashes = some (scannedHashes tree) ∧
    (scannedHashes tree).length = (scanFiles tree).length ∧
    ∀ fh ∈ scannedHashes tree, fh.hash.length = 32 := by
  refine ⟨?_, by simp [scannedHashes], ?_⟩
  · unfold spec_native_transfer at h
    by_cases hd : destExists
    · rw [if_pos hd] at h; exact absurd h (by simp)
    · rw [if_neg hd] at h
      match habort : (specCopyFiles outcome ⟨[], 0, []⟩ (scanFiles tree)).2 with
      | some m => rw [habort] at h; exact absurd h (by simp)
      | none =>
          rw [habort] at h
          by_cases he : (specCopyFiles outcome ⟨[], 0, []⟩ (scanFiles tree)).1.errors.isEmpty
          · rw [if_pos he] at h
            have hr := Except.ok.inj h
            have hh := specCopyFiles_success_hashes outcome (scanFiles tree)
              ⟨[], 0, []⟩ habort (by simpa using List.isEmpty_iff.mp he)
            rw [← hr]
            simp only [hh, List.nil_append]
            unfold scannedHashes
            congr 1
            apply List.map_congr_left
            intro f _
            rw [specCopySingleFile_eq]
          · rw [if_neg he] at h; exact absurd h (by simp)
  · intro fh hm
    unfold scannedHashes at hm
    rcases List.mem_map.mp hm with ⟨f, _, rfl⟩
    simp [blake3Finalize]

/-- A concrete source tree: a regular file, a symlink, and a directory
holding another regular file. -/
def demoTree : List SrcEntry :=
  [.file "a.txt" [104, 105], .symlink "link", .special "dev",
   .dir "d" [.file "b.bin" [1, 2, 3]]]

/-- An outcome assignment under which every file copy succeeds. -/
def allOkSpecOutcome : String → SpecFileOutcome := fun _ => SpecFileOutcome.ok

/-- The result of the spec-modelled transfer over `demoTree`. -/
def demoRun : SpecTransferResult :=
  ((spec_native_transfer allOkSpecOutcome 1 demoTree false "/backups/l/t").toOption).getD
    ⟨0, 0, none⟩

/-- Witness for C1: at the concrete tree the successful run carries
exactly the scanned hashes (one per regular file, symlink and special
entries excluded). -/
theorem C1_file_hashes_witness :
    demoRun.file_hashes = some (scannedHashes demoTree) :=
  (C1_file_hashes_exactly_per_file allOkSpecOutcome 1 demoTree false
    "/backups/l/t" demoRun (by decide)).1

/-! Verifier, src/src/core/verifier.rs. -/

/-- Mismatch reasons (verifier.rs lines 30-37). -/
inductive MismatchReason where
  | hashMismatch
  | missingInDestination
  deriving DecidableEq, Repr

/-- A file that failed verification (verifier.rs lines 23-28). -/
structure FileMismatch where
  relative_path : String
  reason : MismatchReason
  deriving DecidableEq, Repr

/-- Buffer size of the verifier hashing loop `hash_file` (verifier.rs
lines 185 and 188: `64 * 1024`). -/
def verifierHashBufferSize : Nat := 64 * 1024

/-- `hash_file` (verifier.rs lines 178-200): stream the file content into
the BLAKE3 hasher in buffers of `verifierHashBufferSize` bytes and
finalize. -/
def hash_file (content : List Nat) : List Nat :=
  blake3Finalize
    ((chunksOfSucc (verifierHashBufferSize - 1) content).foldl hasherUpdate [])

/-- The reason strings of `format_mismatch_error` (verifier.rs 211-214). -/
def reasonText : MismatchReason → String
  | .hashMismatch => "hash mismatch"
  | .missingInDestination => "missing in destination"

/-- One detail line of the mismatch report (verifier.rs line 215). -/
def mismatchLine (m : FileMismatch) : String :=
  "\n  - " ++ m.relative_path ++ ": " ++ reasonText m.reason

/-- `format_mismatch_error` (verifier.rs lines 203-223): header with the
total count, one detail line for each of the first 10 mismatches, and an
overflow line when more than 10. -/
def format_mismatch_error (ms : List FileMismatch) : String :=
  let msg := "Verification failed: " ++ toString ms.length ++ " file(s) did not match"
  let msg2 := (ms.take 10).foldl (fun acc m => acc ++ mismatchLine m) msg
  if ms.length > 10 then
    msg2 ++ ("\n  ... and " ++ toString (ms.length - 10) ++ " more")
  else msg2

/-- `VerifyResult` (verifier.rs lines 17-21). -/
structure VerifyResult where
  files_verified : Nat
  bytes_verified : Nat
  deriving DecidableEq, Repr

/-- Loop state of `verify_transfer`: collected mismatches and verified
bytes. -/
structure VerifyState where
  mismatches : List FileMismatch
  bytes_verified : Nat
  deriving DecidableEq, Repr

/-- The per-file loop of `verify_transfer` (verifier.rs lines 70-111): a
source file absent from the destination records a missing-in-destination
mismatch and the loop continues with the next file; otherwise both sides
are hashed with `hash_file` and compared, recording a hash mismatch on
difference and otherwise adding the source size to `bytes_verified`.  The
destination is the association list of its files. -/
def verifyLoop (dest : List (String × List Nat)) :
    VerifyState → List (String × List Nat) → VerifyState
  | st, [] => st
  | st, f :: rest =>
      match dest.lookup f.1 with
      | none =>
          verifyLoop dest
            { st with mismatches := st.mismatches ++ [⟨f.1, .missingInDestination⟩] } rest
      | some dc =>
          if hash_file f.2 ≠ hash_file dc then
            verifyLoop dest
              { st with mismatches := st.mismatches ++ [⟨f.1, .hashMismatch⟩] } rest
          else
            verifyLoop dest { st with bytes_verified := st.bytes_verified + f.2.length } rest

/-- `verify_transfer` (verifier.rs lines 45-135) after the source files
have been collected: run the loop; a non-empty mismatch list fails with the
formatted message, else return the counts. -/
def verify_transfer (sourceFiles dest : List (String × List Nat)) :
    Except String VerifyResult :=
  if (verifyLoop dest ⟨[], 0⟩ sourceFiles).mismatches.isEmpty then
    Except.ok ⟨sourceFiles.length, (verifyLoop dest ⟨[], 0⟩ sourceFiles).bytes_verified⟩
  else
    Except.error (format_mismatch_error (verifyLoop dest ⟨[], 0⟩ sourceFiles).mismatches)

/-- The mismatch (if any) the loop records for one source file. -/
def mismatchOf (dest : List (String × List Nat)) (f : String × List Nat) :
    Option FileMismatch :=
  match dest.lookup f.1 with
  | none => some ⟨f.1, .missingInDestination⟩
  | some dc => if hash_file f.2 ≠ hash_file dc then some ⟨f.1, .hashMismatch⟩ else none

theorem verifyLoop_mismatches (dest files : List (String × List Nat)) :
    ∀ st : VerifyState,
      (verifyLoop dest st files).mismatches =
        st.mismatches ++ files.filterMap (mismatchOf dest) := by
  induction files with
  | nil => intro st; simp [verifyLoop]
  | cons f rest ih =>
      intro st
      cases hl : dest.lookup f.1 with
      | none =>
          simp only [verifyLoop, List.filterMap_cons, mismatchOf, hl]
          rw [ih]
          simp
      | some dc =>
          by_cases hh : hash_file f.2 ≠ hash_file dc
          · simp only [verifyLoop, List.filterMap_cons, mismatchOf, hl, if_pos hh]
            rw [ih]
            simp
          · simp only [verifyLoop, List.filterMap_cons, mismatchOf, hl, if_neg hh]
            rw [ih]

/-- Concatenation of the detail lines of a mismatch list. -/
def linesOf : List FileMismatch → String
  | [] => ""
  | m :: rest => mismatchLine m ++ linesOf rest

/-- The header of the mismatch report. -/
def mismatchHeader (n : Nat) : String :=
  "Verification failed: " ++ toString n ++ " file(s) did not match"

/-- The overflow trailer of the mismatch report. -/
def mismatchOverflow (n : Nat) : String :=
  if n > 10 then "\n  ... and " ++ toString (n - 10) ++ " more" else ""

theorem foldl_append_lines (ms : List FileMismatch) :
    ∀ base : String,
      ms.foldl (fun acc m => acc ++ mismatchLine m) base = base ++ linesOf ms := by
  induction ms with
  | nil => intro base; simp [linesOf]
  | cons m rest ih =>
      intro base
      simp only [List.foldl_cons, linesOf, ih, String.append_assoc]

/-- The formatted error is the header, then exactly the detail lines of
the first 10 mismatches, then the overflow trailer. -/
theorem format_mismatch_error_eq (ms : List FileMismatch) :
    format_mismatch_error ms =
      (mismatchHeader ms.length ++ linesOf (ms.take 10)) ++ mismatchOverflow ms.length := by
  simp only [format_mismatch_error, foldl_append_lines, mismatchHeader, mismatchOverflow]
  split
  · rfl
  · simp

/-- `s` occurs as a contiguous substring of `t`. -/
def SubstrOf (s t : String) : Prop := ∃ a b, t = a ++ (s ++ b)

theorem SubstrOf.within {s t : String} (h : SubstrOf s t) (pre post : String) :
    SubstrOf s ((pre ++ t) ++ post) := by
  rcases h with ⟨a, b, rfl⟩
  exact ⟨pre ++ a, b ++ post, by simp [String.append_assoc]⟩

theorem substrOf_linesOf {m : FileMismatch} :
    ∀ ms : List FileMismatch, m ∈ ms → SubstrOf (mismatchLine m) (linesOf ms) := by
  intro ms
  induction ms with
  | nil => intro h; simp at h
  | cons x rest ih =>
      intro h
      rcases List.mem_cons.mp h with h1 | h1
      · subst h1
        exact ⟨"", linesOf rest, by simp [linesOf]⟩
      · rcases ih h1 with ⟨a, b, he⟩
        exact ⟨mismatchLine x ++ a, b, by simp [linesOf, he, String.append_assoc]⟩

/-- C7 (counterexample) The claim says destination files are hashed with a
128 KiB buffer.  The verifier under src/ hashes with a 64 KiB buffer
(`hash_file`, verifier.rs line 185/188), so the claim is false at the
embedded constant. -/
theorem C7_verifier_buffer_counterexample :
    verifierHashBufferSize = 64 * 1024 ∧ ¬ verifierHashBufferSize = 128 * 1024 := by
  decide

/-- C7 (amended) For every verification run: a source file absent from the
destination is recorded as a missing-in-destination mismatch and checking
continues with the next file (the recorded mismatches are exactly the
per-file classification, in order); files are hashed with BLAKE3 using a
64 KiB buffer (not 128 KiB); and when mismatches exist the run fails with
a message that carries the total mismatch count and the detail lines of
exactly the first 10 mismatches (plus an overflow trailer past 10). -/
theorem C7_verifier_mismatch_report (sourceFiles dest : List (String × List Nat)) :
    (verifyLoop dest ⟨[], 0⟩ sourceFiles).mismatches =
        sourceFiles.filterMap (mismatchOf dest) ∧
    verifierHashBufferSize = 64 * 1024 ∧
    ((verifyLoop dest ⟨[], 0⟩ sourceFiles).mismatches ≠ [] →
      verify_transfer sourceFiles dest =
        Except.error
          (format_mismatch_error (verifyLoop dest ⟨[], 0⟩ sourceFiles).mismatches)) ∧
    (∀ ms : List FileMismatch,
      format_mismatch_error ms =
        (mismatchHeader ms.length ++ linesOf (ms.take 10)) ++ mismatchOverflow ms.length ∧
      SubstrOf (toString ms.length) (format_mismatch_error ms) ∧
      ∀ m ∈ ms.take 10, SubstrOf (mismatchLine m) (format_mismatch_error ms)) := by
  refine ⟨by simpa using verifyLoop_mismatches dest sourceFiles ⟨[], 0⟩, rfl, ?_, ?_⟩
  · intro hne
    unfold verify_transfer
    rw [if_neg (by simpa [List.isEmpty_iff] using hne)]
  · intro ms
    refine ⟨format_mismatch_error_eq ms, ?_, ?_⟩
    · rw [format_mismatch_error_eq]
      refine ⟨"Verification failed: ",
        (" file(s) did not match" ++ linesOf (ms.take 10)) ++ mismatchOverflow ms.length, ?_⟩
      simp [mismatchHeader, String.append_assoc]
    · intro m hm
      rw [format_mismatch_error_eq]
      have h1 : SubstrOf (mismatchLine m) (linesOf (ms.take 10)) :=
        substrOf_linesOf (ms.take 10) hm
      have h2 := h1.within (mismatchHeader ms.length) (mismatchOverflow ms.length)
      rcases h2 with ⟨a, b, he⟩
      exact ⟨a, b, by rw [← he]⟩

/-- Witness for C7 (amended): a two-file source where `b.txt` is missing
from the destination; the run fails with the formatted report. -/
theorem C7_verifier_witness :
    verify_transfer [("a.txt", [1]), ("b.txt", [2])] [("a.txt", [1])] =
      Except.error (format_mismatch_error
        (verifyLoop [("a.txt", [1])] ⟨[], 0⟩
          [("a.txt", [1]), ("b.txt", [2])]).mismatches) :=
  (C7_verifier_mismatch_report [("a.txt", [1]), ("b.txt", [2])]
    [("a.txt", [1])]).2.2.1 (by decide)

/-! Job persistence read side, src/src/db/jobs.rs. -/

/-- A row of the `jobs` table. -/
structure JobRow where
  id : String
  target_id : String
  destination_path : String
  created_at : Nat
  deriving DecidableEq, Repr

/-- A row of the append-only `job_status_log` table. -/
structure JobStatusRow where
  id : String
  job_id : String
  status : String
  description : Option String
  total_bytes : Option Nat
  duration_secs : Option Nat
  created_at : Nat
  deriving DecidableEq, Repr

/-- The relational store as the read queries see it. -/
structure Db where
  jobs : List JobRow
  statusLog : List JobStatusRow
  deriving DecidableEq, Repr

/-- The status-log rows of one job (`WHERE job_id = j.id`). -/
def rowsForJob (db : Db) (jobId : String) : List JobStatusRow :=
  db.statusLog.filter fun r => r.job_id == jobId

/-- The `ORDER BY created_at DESC LIMIT 1` subquery: the newest row by
`created_at` (on equal timestamps the later row of the scan wins; SQLite
leaves the tie unspecified). -/
def latestRow (rows : List JobStatusRow) : Option JobStatusRow :=
  rows.foldl
    (fun acc r =>
      match acc with
      | none => some r
      | some a => if a.created_at ≤ r.created_at then some r else some a)
    none

/-- The derived current status:
`COALESCE((SELECT status ... ORDER BY created_at DESC LIMIT 1), 'Unknown')`
(jobs.rs lines 56-57, 109-110, 123-124, 162-163). -/
def derivedStatus (db : Db) (jobId : String) : String :=
  match latestRow (rowsForJob db jobId) with
  | none => "Unknown"
  | some r => r.status

/-- The `Job` model (src/src/core/models.rs lines 11-18) as filled by the
read queries. -/
structure Job where
  id : String
  target_id : String
  destination_path : String
  created_at : Nat
  status : String
  deriving DecidableEq, Repr

/-- One result row of the job queries. -/
def jobOfRow (db : Db) (j : JobRow) : Job :=
  ⟨j.id, j.target_id, j.destination_path, j.created_at, derivedStatus db j.id⟩

/-- `db::jobs::get` (jobs.rs lines 53-74): the row for the id with the
derived status; an absent id is a query error. -/
def db_jobs_get (db : Db) (jobId : String) : Except String Job :=
  match db.jobs.find? (fun j => j.id == jobId) with
  | none => Except.error "Failed to get job: query returned no rows"
  | some j => Except.ok (jobOfRow db j)

/-- Insertion into a list sorted by `created_at` descending. -/
def insertByCreatedDesc (j : JobRow) : List JobRow → List JobRow
  | [] => [j]
  | x :: xs =>
      if x.created_at ≤ j.created_at then j :: x :: xs
      else x :: insertByCreatedDesc j xs

/-- `ORDER BY j.created_at DESC` (insertion sort; the order among equal
timestamps is not claim-relevant). -/
def sortByCreatedDesc : List JobRow → List JobRow
  | [] => []
  | j :: rest => insertByCreatedDesc j (sortByCreatedDesc rest)

/-- `db::jobs::list` (jobs.rs lines 100-154): with a status filter, keep
only jobs whose latest-status subquery equals the filter (the `WHERE`
clause compares the raw subquery, so jobs with an empty log — a NULL
subquery — never match); order by creation date descending; apply offset
and limit; fill each row with the derived (COALESCEd) status. -/
def db_jobs_list (db : Db) (limit offset : Nat) (statusFilter : Option String) :
    List Job :=
  match statusFilter with
  | some s =>
      ((((sortByCreatedDesc
            (db.jobs.filter fun j =>
              ((latestRow (rowsForJob db j.id)).map fun r => r.status) == some s)).drop
          offset).take limit).map (jobOfRow db))
  | none =>
      ((((sortByCreatedDesc db.jobs).drop offset).take limit).map (jobOfRow db))

/-- `JobStatusEntry` (src/src/core/models.rs lines 21-29). -/
structure JobStatusEntry where
  id : String
  status : String
  description : Option String
  total_bytes : Option Nat
  duration_secs : Option Nat
  created_at : Nat
  deriving DecidableEq, Repr

/-- `JobWithHistory` (src/src/core/models.rs lines 32-37). -/
structure JobWithHistory where
  job : Job
  history : List JobStatusEntry
  deriving DecidableEq, Repr

/-- One history entry from a status-log row. -/
def entryOfRow (r : JobStatusRow) : JobStatusEntry :=
  ⟨r.id, r.status, r.description, r.total_bytes, r.duration_secs, r.created_at⟩

/-- Insertion into a list sorted by `created_at` ascending. -/
def insertRowAsc (r : JobStatusRow) : List JobStatusRow → List JobStatusRow
  | [] => [r]
  | x :: xs =>
      if r.created_at ≤ x.created_at then r :: x :: xs
      else x :: insertRowAsc r xs

/-- `ORDER BY created_at ASC` for the history query. -/
def sortRowsAsc : List JobStatusRow → List JobStatusRow
  | [] => []
  | r :: rest => insertRowAsc r (sortRowsAsc rest)

/-- `db::jobs::get_with_history` (jobs.rs lines 157-205): the job row with
derived status plus its status history in ascending creation order. -/
def db_jobs_get_with_history (db : Db) (jobId : String) :
    Except String JobWithHistory :=
  match db.jobs.find? (fun j => j.id == jobId) with
  | none => Except.error "Failed to get job with history: query returned no rows"
  | some j =>
      Except.ok ⟨jobOfRow db j, (sortRowsAsc (rowsForJob db jobId)).map entryOfRow⟩

theorem mem_insertByCreatedDesc {x j : JobRow} :
    ∀ l : List JobRow, x ∈ insertByCreatedDesc j l → x = j ∨ x ∈ l := by
  intro l
  induction l with
  | nil =>
      intro h
      unfold insertByCreatedDesc at h
      exact Or.inl (by simpa using h)
  | cons y ys ih =>
      intro h
      unfold insertByCreatedDesc at h
      split at h
      · rcases List.mem_cons.mp h with h1 | h1
        · exact Or.inl h1
        · exact Or.inr h1
      · rcases List.mem_cons.mp h with h1 | h1
        · exact Or.inr (List.mem_cons.mpr (Or.inl h1))
        · rcases ih h1 with h2 | h2
          · exact Or.inl h2
          · exact Or.inr (List.mem_cons.mpr (Or.inr h2))

theorem mem_sortByCreatedDesc {x : JobRow} :
    ∀ l : List JobRow, x ∈ sortByCreatedDesc l → x ∈ l := by
  intro l
  induction l with
  | nil => intro h; simp [sortByCreatedDesc] at h
  | cons y ys ih =>
      intro h
      unfold sortByCreatedDesc at h
      rcases mem_insertByCreatedDesc _ h with h1 | h1
      · exact List.mem_cons.mpr (Or.inl h1)
      · exact List.mem_cons.mpr (Or.inr (ih h1))

/-- Every job produced by an unfiltered `list` is a row of the table
filled by `jobOfRow`. -/
theorem db_jobs_list_mem (db : Db) (limit offset : Nat) (job : Job)
    (h : job ∈ db_jobs_list db limit offset none) :
    ∃ x, x ∈ db.jobs ∧ job = jobOfRow db x := by
  unfold db_jobs_list at h
  rcases List.mem_map.mp h with ⟨x, hx, rfl⟩
  exact ⟨x, mem_sortByCreatedDesc _ (List.mem_of_mem_drop (List.mem_of_mem_take hx)), rfl⟩

/-- C10 A job row with no status-log entries is reported by the read-side
operations — get, list (unfiltered), and get_with_history — with derived
current status equal to the literal string Unknown, which is not one of
the six status tags; its history is empty. -/
theorem C10_empty_log_reports_unknown (db : Db) (j : JobRow)
    (limit offset : Nat)
    (hfind : db.jobs.find? (fun x => x.id == j.id) = some j)
    (hnone : rowsForJob db j.id = []) :
    db_jobs_get db j.id = Except.ok (jobOfRow db j) ∧
    (jobOfRow db j).status = "Unknown" ∧
    (∀ job ∈ db_jobs_list db limit offset none,
      job.id = j.id → job.status = "Unknown") ∧
    db_jobs_get_with_history db j.id = Except.ok ⟨jobOfRow db j, []⟩ ∧
    ("Unknown" ∉
      ["ready", "in_progress", "copy_complete", "verifying", "complete", "failed"]) := by
  have hstatus : derivedStatus db j.id = "Unknown" := by
    unfold derivedStatus
    rw [hnone]
    rfl
  refine ⟨?_, ?_, ?_, ?_, by decide⟩
  · unfold db_jobs_get
    rw [hfind]
  · simpa [jobOfRow] using hstatus
  · intro job hmem hid
    rcases db_jobs_list_mem db limit offset job hmem with ⟨x, _, rfl⟩
    have hx : x.id = j.id := hid
    simp only [jobOfRow]
    rw [hx, hstatus]
  · unfold db_jobs_get_with_history
    rw [hfind, hnone]
    rfl

/-- Witness for C10 at a one-job store with an empty status log. -/
theorem C10_empty_log_witness :
    db_jobs_get ⟨[⟨"job-1", "t-1", "/backups/x", 5⟩], []⟩ "job-1" =
      Except.ok (jobOfRow ⟨[⟨"job-1", "t-1", "/backups/x", 5⟩], []⟩
        ⟨"job-1", "t-1", "/backups/x", 5⟩) :=
  (C10_empty_log_reports_unknown ⟨[⟨"job-1", "t-1", "/backups/x", 5⟩], []⟩
    ⟨"job-1", "t-1", "/backups/x", 5⟩ 10 0 (by decide) (by decide)).1

end Bksd
